import Mathlib

/-!
Verification of the KSFX keyboard-sound-effects program (`src/main.rs`).

The per-tick event loop, its state, the binding matcher, the pack-switch
arithmetic, the pitch update and the default-configuration bootstrap are
shallowly embedded below.  `f32` values are modelled as exact rationals,
`usize` as `Nat`, panicking operations (`%` by zero, out-of-bounds
indexing) as `Except`, and wall-clock instants as rational timestamps
supplied as per-tick inputs.
-/

/- The Batteries rational-arithmetic primitives are `@[irreducible]`,
which blocks `decide` from evaluating concrete program runs; restore
their reducibility for this development (the kernel is unaffected). -/
set_option allowUnsafeReducibility true in
attribute [semireducible] Rat.add Rat.mul Rat.inv Rat.sub Rat.ofScientific

namespace KSFX

/-- The two shapes of a sound-pack configuration entry
(`enum SoundPackSettings`, main.rs lines 10-22). -/
inductive SoundPackSettings where
  | Basic (path : String)
  | Advanced (name : String)
      (volume pitch_start pitch_range pitch_steps fast_threshold : Option ℚ)
deriving DecidableEq

/-- `get_path` (main.rs lines 24-31): the pack location is the `Basic`
payload, or the `name` field of the `Advanced` variant. -/
def get_path : SoundPackSettings → String
  | SoundPackSettings.Basic path => path
  | SoundPackSettings.Advanced name _ _ _ _ _ => name

/-- The separator test used by `get_name` (main.rs line 35). -/
def isSeparator (c : Char) : Bool := c == '/' || c == '\\'

/-- `Iterator::position`: index of the first element satisfying the
predicate, `none` if there is none. -/
def position (p : Char → Bool) : List Char → Option Nat
  | [] => none
  | c :: rest => if p c then some 0 else (position p rest).map (fun n => n + 1)

/-- Rust `&str` byte slicing from a byte offset: walking the UTF-8
encoding, `some j` when the offset `k` lands on the boundary before the
`j`-th character (the slice is then the character suffix from `j`),
`none` when it falls inside a multi-byte character or past the end
(the slice panics). -/
def boundary_char_index : List Char → Nat → Option Nat
  | _, 0 => some 0
  | [], _ + 1 => none
  | c :: rest, k + 1 =>
    if c.utf8Size ≤ k + 1 then
      (boundary_char_index rest (k + 1 - c.utf8Size)).map (fun j => j + 1)
    else none

/-- `get_name` (main.rs lines 33-41): searches the reversed character
sequence for a separator; on a hit at reversed index `idx` it slices the
path from BYTE offset `path.chars().count() - idx - 1` (a character
count used as a byte index), otherwise returns the whole path.  `none`
models the slice panic when that byte offset is not a character
boundary of the UTF-8 path. -/
def get_name (settings : SoundPackSettings) : Option String :=
  let path := get_path settings
  let cs := path.toList
  match position isSeparator cs.reverse with
  | some idx =>
    match boundary_char_index cs (cs.length - idx - 1) with
    | some j => some (String.mk (cs.drop j))
    | none => none
  | none => some path

/-- `struct Settings` (main.rs lines 43-55). -/
structure Settings where
  sound_packs : List SoundPackSettings
  previous_sound_pack : Option (List String)
  next_sound_pack : Option (List String)
  terminate : Option (List String)
  toggle : Option (List String)
  volume : Option ℚ
  pitch_start : Option ℚ
  pitch_range : Option ℚ
  pitch_steps : Option ℚ
  fast_threshold : Option ℚ
deriving DecidableEq

/-- The key-combo match used by every binding check (main.rs lines
144-145 and the identical conditions at 150-151, 159-160, 173-174):
equal lengths and every binding key contained in the held-key list. -/
def binding_matches (keybind : List String) (key_names : List String) : Bool :=
  keybind.length == key_names.length &&
    keybind.all (fun x => key_names.contains x)

/-- The surrounding `if let Some(keybind)` pattern: an absent binding
never matches. -/
def matchesOpt (kb : Option (List String)) (key_names : List String) : Bool :=
  match kb with
  | some keybind => binding_matches keybind key_names
  | none => false

/-- The mutable loop state (main.rs lines 61 and 132-137). -/
structure LoopState where
  active : Bool
  toggled : Bool
  switched_pack : Bool
  current_sound_pack : Nat
  previous_key_amt : Nat
  pitch : ℚ
  last_press : ℚ
deriving DecidableEq

/-- Per-tick inputs from outside the loop: the names of the held keys
(`device_state.get_keys()` mapped to strings), the current instant, and
the value drawn by `random::<f32>()`. -/
structure TickInput where
  keys : List String
  now : ℚ
  rand : ℚ
deriving DecidableEq

/-- Which actions fired during a tick (observable through the `println!`
calls and the sink operations). -/
structure TickEvents where
  toggle_fired : Bool
  prev_fired : Bool
  next_fired : Bool
  played : Bool
deriving DecidableEq

/-- The panics a tick can raise, by site: `%= sound_packs.len()` with an
empty pack list (lines 168 and 177), indexing a pack or its settings
entry by the current index (lines 169, 178, 185, 188), the byte slice
inside the `get_name` call of the pack-switch report (lines 169, 178)
landing off a character boundary, and indexing a clip inside a pack
(line 220). -/
inductive PanicKind where
  | remainderByZero
  | packIndexOutOfBounds
  | byteIndexNotCharBoundary
  | clipIndexOutOfBounds
deriving DecidableEq

/-- The outcome of one loop iteration. -/
inductive TickResult where
  | terminated
  | panic (k : PanicKind)
  | ok (s : LoopState) (ev : TickEvents)
deriving DecidableEq

/-- The previous-pack index computation (main.rs lines 162-168): if the
index was 0 it is set to the pack count, otherwise decremented; then
reduced modulo the pack count.  Only evaluated when the count is
nonzero (otherwise the `%=` panics first). -/
def prev_pack_index (idx n : Nat) : Nat :=
  (if idx = 0 then n else idx - 1) % n

/-- The next-pack check (main.rs lines 172-180), operating on the flag
and index as the previous-pack check left them; `prev_fired` is passed
through for event reporting. -/
def next_pack_step (settings : Settings) (packCount : Nat)
    (key_names : List String) (switched1 : Bool) (current1 : Nat)
    (prev_fired : Bool) : Except PanicKind (Bool × Nat × Bool × Bool) :=
  if (!switched1 && matchesOpt settings.next_sound_pack key_names) = true then
    if packCount = 0 then Except.error PanicKind.remainderByZero
    else
      match settings.sound_packs[(current1 + 1) % packCount]? with
      | none => Except.error PanicKind.packIndexOutOfBounds
      | some entry =>
        match get_name entry with
        | none => Except.error PanicKind.byteIndexNotCharBoundary
        | some _ =>
          Except.ok (true, (current1 + 1) % packCount, prev_fired, true)
  else Except.ok (switched1, current1, prev_fired, false)

/-- The previous/next pack-switch checks (main.rs lines 158-180),
operating on the post-reset `switched_pack` flag and the current index.
Returns the new flag, the new index and which of the two actions fired,
or the panic the block raises. -/
def switch_step (settings : Settings) (packCount : Nat)
    (key_names : List String) (switched : Bool) (current : Nat) :
    Except PanicKind (Bool × Nat × Bool × Bool) :=
  if (!switched && matchesOpt settings.previous_sound_pack key_names) = true then
    if packCount = 0 then Except.error PanicKind.remainderByZero
    else
      match settings.sound_packs[prev_pack_index current packCount]? with
      | none => Except.error PanicKind.packIndexOutOfBounds
      | some entry =>
        match get_name entry with
        | none => Except.error PanicKind.byteIndexNotCharBoundary
        | some _ => next_pack_step settings packCount key_names true
            (prev_pack_index current packCount) true
  else next_pack_step settings packCount key_names switched current false

/-- Effective playback parameters for the pack at `idx` (main.rs lines
186-204): pack-level override if the entry is `Advanced`, else the
global setting, else the hard-coded default (volume 1, pitch_start 1/2,
pitch_range 1/2, pitch_steps 1/200, fast_threshold 1).  `none` when the
index is out of bounds of the settings list. -/
def resolve_params (settings : Settings) (idx : Nat) :
    Option (ℚ × ℚ × ℚ × ℚ × ℚ) :=
  match settings.sound_packs[idx]? with
  | none => none
  | some (SoundPackSettings.Advanced _ a b c d e) =>
    some (a.getD (settings.volume.getD 1),
          b.getD (settings.pitch_start.getD (1/2)),
          c.getD (settings.pitch_range.getD (1/2)),
          d.getD (settings.pitch_steps.getD (1/200)),
          e.getD (settings.fast_threshold.getD 1))
  | some (SoundPackSettings.Basic _) =>
    some (settings.volume.getD 1,
          settings.pitch_start.getD (1/2),
          settings.pitch_range.getD (1/2),
          settings.pitch_steps.getD (1/200),
          settings.fast_threshold.getD 1)

/-- The threshold actually compared against the elapsed time (main.rs
line 206): `Duration::from_millis((fast_threshold * 1000.0) as u64)`,
i.e. the threshold in seconds is truncated to whole milliseconds (the
`as u64` cast clamps negatives to 0 and saturates at `u64::MAX`). -/
def ms_threshold (ft : ℚ) : ℚ :=
  mkRat (Int.ofNat (min (Int.floor (ft * 1000)).toNat (2 ^ 64 - 1))) 1000

/-- The pitch update on a new press (main.rs lines 207-212). -/
def pitch_update (fast : Bool) (pitch ps pr st : ℚ) : ℚ :=
  if pitch < ps + pr ∧ fast = true then pitch + st
  else if fast = false then ps
  else pitch

/-- The playback block for a new press (main.rs lines 184-221): index
the current pack (line 185), resolve parameters (lines 186-204), compute
`fast`, update the pitch, record the press instant, and index the chosen
clip (line 220).  `packs` lists the number of clips in each loaded pack.
Returns the new pitch and last-press instant. -/
def playback_step (settings : Settings) (packs : List Nat) (current : Nat)
    (pitch last_press now rand : ℚ) : Except PanicKind (ℚ × ℚ) :=
  match packs[current]? with
  | none => Except.error PanicKind.packIndexOutOfBounds
  | some packLen =>
    match resolve_params settings current with
    | none => Except.error PanicKind.packIndexOutOfBounds
    | some (_volume, ps, pr, st, ft) =>
      if packLen ≤ (Int.floor (rand * (packLen : ℚ))).toNat then
        Except.error PanicKind.clipIndexOutOfBounds
      else
        Except.ok (pitch_update (decide (now - last_press < ms_threshold ft))
          pitch ps pr st, now)

/-- One iteration of the main loop (main.rs lines 139-224): terminate
check, toggle check, release-reset of the consumed flags, previous/next
pack switches, the inactivity `continue`, new-press playback, and the
final `previous_key_amt` update. -/
def tick (settings : Settings) (packs : List Nat) (s : LoopState)
    (i : TickInput) : TickResult :=
  let key_names := i.keys
  if matchesOpt settings.terminate key_names = true then TickResult.terminated
  else
    let toggle_fired := !s.toggled && matchesOpt settings.toggle key_names
    let toggled1 := s.toggled || toggle_fired
    let active1 := if toggle_fired = true then !s.active else s.active
    let toggled2 := if key_names.length = 0 then false else toggled1
    let switched1 := if key_names.length = 0 then false else s.switched_pack
    match switch_step settings packs.length key_names switched1
        s.current_sound_pack with
    | Except.error k => TickResult.panic k
    | Except.ok (switched2, current2, prev_fired, next_fired) =>
      if active1 = false then
        TickResult.ok
          { s with active := active1,
                   toggled := toggled2,
                   switched_pack := switched2,
                   current_sound_pack := current2 }
          ⟨toggle_fired, prev_fired, next_fired, false⟩
      else if s.previous_key_amt < key_names.length then
        match playback_step settings packs current2 s.pitch s.last_press
            i.now i.rand with
        | Except.error k => TickResult.panic k
        | Except.ok (pitch1, lp1) =>
          TickResult.ok
            { active := active1,
              toggled := toggled2,
              switched_pack := switched2,
              current_sound_pack := current2,
              previous_key_amt := key_names.length,
              pitch := pitch1,
              last_press := lp1 }
            ⟨toggle_fired, prev_fired, next_fired, true⟩
      else
        TickResult.ok
          { s with active := active1,
                   toggled := toggled2,
                   switched_pack := switched2,
                   current_sound_pack := current2,
                   previous_key_amt := key_names.length }
          ⟨toggle_fired, prev_fired, next_fired, false⟩

/-- Iterated ticks: `some` of the final state and the per-tick events
when every tick returns `ok`, `none` as soon as one terminates or
panics. -/
def run (settings : Settings) (packs : List Nat) :
    LoopState → List TickInput → Option (LoopState × List TickEvents)
  | s, [] => some (s, [])
  | s, i :: rest =>
    match tick settings packs s i with
    | TickResult.ok s1 ev =>
      match run settings packs s1 rest with
      | some (sf, evs) => some (sf, ev :: evs)
      | none => none
    | _ => none

/-- The loop state on entry to the first iteration (main.rs lines 61 and
132-137): active, no flags consumed, index 0, zero previous key count,
pitch from the global `pitch_start` (1/2 when absent), last press at the
startup instant `t0`. -/
def init_state (settings : Settings) (t0 : ℚ) : LoopState :=
  { active := true, toggled := false, switched_pack := false,
    current_sound_pack := 0, previous_key_amt := 0,
    pitch := settings.pitch_start.getD (1/2), last_press := t0 }

/-- The in-memory settings synthesized when no config file exists
(main.rs lines 107-113). -/
def default_settings : Settings :=
  { sound_packs := [SoundPackSettings.Basic "assets"],
    previous_sound_pack := some ["F4"],
    next_sound_pack := some ["F5"],
    terminate := some ["F2"],
    toggle := some ["F3"],
    volume := some 1,
    pitch_start := some (1/2),
    pitch_range := some (1/2),
    pitch_steps := some (1/200),
    fast_threshold := some 1 }

/-- The exact text written to the config file when none exists (main.rs
lines 85-98). -/
def default_serialized_config : String :=
  "\x7b\n  \"sound_packs\": [\"assets\"],\n  \"previous_sound_pack\": [\"F4\"],\n  \"next_sound_pack\": [\"F5\"],\n  \"terminate\": [\"F2\"],\n  \"toggle\": [\"F3\"],\n  \"volume\": 1.0,\n  \"pitch_start\": 0.5,\n  \"pitch_range\": 0.5,\n  \"pitch_steps\": 0.005,\n  \"fast_threshold\": 1.0\n\x7d"

/-- A character standing for the opening brace of a JSON object. -/
def lbrace : Char := Char.ofNat 123

/-- A character standing for the closing brace of a JSON object. -/
def rbrace : Char := Char.ofNat 125

/-- JSON values, as far as the KSFX config format needs them.
Numbers are exact rationals. -/
inductive Json where
  | str (s : String)
  | num (q : ℚ)
  | arr (xs : List Json)
  | obj (fields : List (String × Json))

/-- Modelled from the spec: the config file is JSON parsed by an external
collaborator (serde_json).  Body of a JSON string after the opening
quote; returns the characters up to the closing quote and the rest. -/
def parse_string_body : List Char → Option (List Char × List Char)
  | [] => none
  | c :: rest =>
    if c == '\"' then some ([], rest)
    else if c == '\\' then
      match rest with
      | [] => none
      | e :: rest2 =>
        match parse_string_body rest2 with
        | some (acc, rem) => some ((if e == 'n' then '\n' else e) :: acc, rem)
        | none => none
    else
      match parse_string_body rest with
      | some (acc, rem) => some (c :: acc, rem)
      | none => none

/-- Leading whitespace removal for the JSON reader. -/
def skip_ws (cs : List Char) : List Char :=
  cs.dropWhile (fun c => c == ' ' || c == '\n' || c == '\t' || c == '\r')

/-- Numeric value of a decimal digit character. -/
def digit_val (c : Char) : Nat := c.toNat - 48

/-- Reads a maximal run of decimal digits, returning the accumulated
value, the number of digits read and the rest of the input. -/
def parse_digits : List Char → Nat → Nat × Nat × List Char
  | [], acc => (acc, 0, [])
  | c :: rest, acc =>
    if c.isDigit then
      let (v, n, rem) := parse_digits rest (acc * 10 + digit_val c)
      (v, n + 1, rem)
    else (acc, 0, c :: rest)

/-- A JSON number: optional minus sign, integer part, optional fraction.
Exponents are not needed by the KSFX config format. -/
def parse_number (cs : List Char) : Option (ℚ × List Char) :=
  let (neg, cs1) :=
    match cs with
    | c :: rest => if c == '-' then (true, rest) else (false, cs)
    | [] => (false, cs)
  match cs1 with
  | c :: _ =>
    if c.isDigit then
      let (ip, _, cs2) := parse_digits cs1 0
      match cs2 with
      | dot :: cs3 =>
        if dot == '.' then
          let (fp, n, cs4) := parse_digits cs3 0
          let q : ℚ := (ip : ℚ) + (fp : ℚ) / ((10 ^ n : ℕ) : ℚ)
          some (if neg then -q else q, cs4)
        else some ((if neg then -(ip : ℚ) else (ip : ℚ)), cs2)
      | [] => some ((if neg then -(ip : ℚ) else (ip : ℚ)), [])
    else none
  | [] => none

mutual

/-- Modelled from the spec: one JSON value (string, number, array or
object), with a fuel bound on nesting depth. -/
def parse_value : Nat → List Char → Option (Json × List Char)
  | 0, _ => none
  | fuel + 1, cs =>
    match skip_ws cs with
    | [] => none
    | c :: rest =>
      if c == '\"' then
        match parse_string_body rest with
        | some (acc, rem) => some (Json.str (String.mk acc), rem)
        | none => none
      else if c == '[' then parse_array_items fuel rest
      else if c == lbrace then parse_obj_items fuel rest
      else if c == '-' || c.isDigit then
        match parse_number (c :: rest) with
        | some (q, rem) => some (Json.num q, rem)
        | none => none
      else none

/-- The element list of a JSON array, after the opening bracket. -/
def parse_array_items : Nat → List Char → Option (Json × List Char)
  | 0, _ => none
  | fuel + 1, cs =>
    match skip_ws cs with
    | c :: rest =>
      if c == ']' then some (Json.arr [], rest)
      else
        match parse_value fuel (c :: rest) with
        | some (v, rem) =>
          match skip_ws rem with
          | c2 :: rem2 =>
            if c2 == ',' then
              match parse_array_items fuel rem2 with
              | some (Json.arr vs, rem3) => some (Json.arr (v :: vs), rem3)
              | _ => none
            else if c2 == ']' then some (Json.arr [v], rem2)
            else none
          | [] => none
        | none => none
    | [] => none

/-- The field list of a JSON object, after the opening brace. -/
def parse_obj_items : Nat → List Char → Option (Json × List Char)
  | 0, _ => none
  | fuel + 1, cs =>
    match skip_ws cs with
    | c :: rest =>
      if c == rbrace then some (Json.obj [], rest)
      else if c == '\"' then
        match parse_string_body rest with
        | some (key, rem) =>
          match skip_ws rem with
          | c2 :: rem2 =>
            if c2 == ':' then
              match parse_value fuel rem2 with
              | some (v, rem3) =>
                match skip_ws rem3 with
                | c3 :: rem4 =>
                  if c3 == ',' then
                    match parse_obj_items fuel rem4 with
                    | some (Json.obj fs, rem5) =>
                      some (Json.obj ((String.mk key, v) :: fs), rem5)
                    | _ => none
                  else if c3 == rbrace then
                    some (Json.obj [(String.mk key, v)], rem4)
                  else none
                | [] => none
              | none => none
            else none
          | [] => none
        | none => none
      else none
    | [] => none

end

/-- A JSON string payload. -/
def as_string : Json → Option String
  | Json.str s => some s
  | _ => none

/-- A keybinding: a JSON array of strings. -/
def as_keybind : Json → Option (List String)
  | Json.arr xs => xs.mapM as_string
  | _ => none

/-- A JSON number payload. -/
def as_num : Json → Option ℚ
  | Json.num q => some q
  | _ => none

/-- An optional field of a JSON object: absent keys give `none`. -/
def opt_field {α : Type} (fields : List (String × Json)) (key : String)
    (f : Json → Option α) : Option α :=
  (fields.lookup key).bind f

/-- Modelled from the spec: serde's untagged decoding of a sound-pack
entry — a bare string becomes `Basic`, an object with a `name` field
becomes `Advanced` with optional numeric overrides. -/
def as_sound_pack : Json → Option SoundPackSettings
  | Json.str s => some (SoundPackSettings.Basic s)
  | Json.obj fields =>
    match fields.lookup "name" with
    | some (Json.str n) =>
      some (SoundPackSettings.Advanced n
        (opt_field fields "volume" as_num)
        (opt_field fields "pitch_start" as_num)
        (opt_field fields "pitch_range" as_num)
        (opt_field fields "pitch_steps" as_num)
        (opt_field fields "fast_threshold" as_num))
    | _ => none
  | _ => none

/-- Modelled from the spec: serde's decoding of the `Settings` struct —
`sound_packs` is required, every other field is optional. -/
def settings_from_json : Json → Option Settings
  | Json.obj fields =>
    match (fields.lookup "sound_packs").bind
        (fun j => match j with
          | Json.arr xs => xs.mapM as_sound_pack
          | _ => none) with
    | some sps =>
      some { sound_packs := sps,
             previous_sound_pack :=
               opt_field fields "previous_sound_pack" as_keybind,
             next_sound_pack := opt_field fields "next_sound_pack" as_keybind,
             terminate := opt_field fields "terminate" as_keybind,
             toggle := opt_field fields "toggle" as_keybind,
             volume := opt_field fields "volume" as_num,
             pitch_start := opt_field fields "pitch_start" as_num,
             pitch_range := opt_field fields "pitch_range" as_num,
             pitch_steps := opt_field fields "pitch_steps" as_num,
             fast_threshold := opt_field fields "fast_threshold" as_num }
    | none => none
  | _ => none

/-- Modelled from the spec: end-to-end config deserialization — parse
the file text as one JSON value followed only by whitespace, then decode
it into `Settings`. -/
def parse_settings (s : String) : Option Settings :=
  match parse_value 1000 s.toList with
  | some (j, rem) =>
    if skip_ws rem = [] then settings_from_json j else none
  | none => none

/-! ## Lemmas about `position` -/

theorem position_eq_none {p : Char → Bool} {l : List Char} :
    position p l = none ↔ ∀ c ∈ l, p c = false := by
  induction l with
  | nil => simp [position]
  | cons c rest ih =>
    simp only [position]
    by_cases h : p c
    · simp [h]
    · simp [h, ih, Bool.not_eq_true] at *

theorem position_eq_some {p : Char → Bool} :
    ∀ {l : List Char} {idx : Nat}, position p l = some idx →
      ∃ l1 c l2, l = l1 ++ c :: l2 ∧ p c = true ∧
        (∀ x ∈ l1, p x = false) ∧ l1.length = idx := by
  intro l
  induction l with
  | nil => intro idx h; simp [position] at h
  | cons c rest ih =>
    intro idx h
    simp only [position] at h
    by_cases hc : p c
    · rw [if_pos hc] at h
      have h0 : (0 : Nat) = idx := Option.some.inj h
      exact ⟨[], c, rest, rfl, hc, by simp, h0⟩
    · rw [if_neg hc] at h
      cases hpr : position p rest with
      | none => rw [hpr] at h; simp at h
      | some j =>
        rw [hpr] at h
        simp at h
        obtain ⟨l1, c1, l2, hsplit, hp, hall, hlen⟩ := ih hpr
        refine ⟨c :: l1, c1, l2, by rw [hsplit]; rfl, hp, ?_, by simp [hlen, h]⟩
        intro x hx
        rcases List.mem_cons.mp hx with rfl | hx2
        · simpa [Bool.not_eq_true] using hc
        · exact hall x hx2

/-! ## Lemmas about `next_pack_step` and `switch_step` -/

theorem next_pack_step_ok_facts (settings : Settings) (n : Nat)
    (keys : List String) (sw1 : Bool) (cur1 : Nat) (pf : Bool)
    (sw : Bool) (cur2 : Nat) (pf2 nf : Bool)
    (h : next_pack_step settings n keys sw1 cur1 pf =
      Except.ok (sw, cur2, pf2, nf)) :
    pf2 = pf ∧
    (nf = true → sw1 = false ∧
      matchesOpt settings.next_sound_pack keys = true) ∧
    sw = (sw1 || nf) ∧
    (nf = false → cur2 = cur1 ∧ sw = sw1) := by
  unfold next_pack_step at h
  by_cases hg : (!sw1 && matchesOpt settings.next_sound_pack keys) = true
  · have hg2 := hg
    rw [Bool.and_eq_true] at hg2
    obtain ⟨h1, h2⟩ := hg2
    have hsw1 : sw1 = false := by
      cases sw1
      · rfl
      · simp at h1
    rw [if_pos hg] at h
    by_cases hn0 : n = 0
    · rw [if_pos hn0] at h
      simp at h
    · rw [if_neg hn0] at h
      cases hge : settings.sound_packs[(cur1 + 1) % n]? with
      | none =>
        rw [hge] at h
        simp at h
      | some entry =>
        rw [hge] at h
        simp only [] at h
        cases hgn : get_name entry with
        | none =>
          rw [hgn] at h
          simp at h
        | some nm =>
          rw [hgn] at h
          simp only [Except.ok.injEq, Prod.mk.injEq] at h
          obtain ⟨e1, e2, e3, e4⟩ := h
          subst e1; subst e2; subst e3; subst e4
          refine ⟨rfl, fun _ => ⟨hsw1, h2⟩, by simp [hsw1], ?_⟩
          intro hnf
          exact absurd hnf (by simp)
  · rw [if_neg hg] at h
    simp only [Except.ok.injEq, Prod.mk.injEq] at h
    obtain ⟨e1, e2, e3, e4⟩ := h
    subst e1; subst e2; subst e3; subst e4
    exact ⟨rfl, fun hnf => absurd hnf (by simp), by simp,
      fun _ => ⟨rfl, rfl⟩⟩

theorem next_pack_step_swIn_true (settings : Settings) (n : Nat)
    (keys : List String) (cur1 : Nat) (pf : Bool) :
    next_pack_step settings n keys true cur1 pf =
      Except.ok (true, cur1, pf, false) := by
  unfold next_pack_step
  simp

theorem switch_step_swIn_true (settings : Settings) (n : Nat)
    (keys : List String) (cur : Nat) :
    switch_step settings n keys true cur =
      Except.ok (true, cur, false, false) := by
  unfold switch_step
  simp [next_pack_step_swIn_true]

theorem switch_step_no_match (settings : Settings) (n : Nat)
    (keys : List String) (swIn : Bool) (cur : Nat)
    (hp : matchesOpt settings.previous_sound_pack keys = false)
    (hn : matchesOpt settings.next_sound_pack keys = false) :
    switch_step settings n keys swIn cur =
      Except.ok (swIn, cur, false, false) := by
  unfold switch_step next_pack_step
  simp [hp, hn]

theorem switch_step_ok_facts (settings : Settings) (n : Nat)
    (keys : List String) (swIn : Bool) (cur : Nat)
    (sw : Bool) (cur2 : Nat) (pf nf : Bool)
    (h : switch_step settings n keys swIn cur =
      Except.ok (sw, cur2, pf, nf)) :
    (pf = true → swIn = false ∧
      matchesOpt settings.previous_sound_pack keys = true) ∧
    (nf = true → swIn = false ∧ pf = false ∧
      matchesOpt settings.next_sound_pack keys = true) ∧
    sw = (swIn || pf || nf) ∧
    (pf = false → nf = false → cur2 = cur ∧ sw = swIn) := by
  unfold switch_step at h
  by_cases hg1 : (!swIn && matchesOpt settings.previous_sound_pack keys) = true
  · have hg2 := hg1
    rw [Bool.and_eq_true] at hg2
    obtain ⟨h1, hpm⟩ := hg2
    have hswf : swIn = false := by
      cases swIn
      · rfl
      · simp at h1
    rw [if_pos hg1] at h
    by_cases hn0 : n = 0
    · rw [if_pos hn0] at h
      simp at h
    · rw [if_neg hn0] at h
      cases hge : settings.sound_packs[prev_pack_index cur n]? with
      | none =>
        rw [hge] at h
        simp at h
      | some entry =>
        rw [hge] at h
        simp only [] at h
        cases hgn : get_name entry with
        | none =>
          rw [hgn] at h
          simp at h
        | some nm =>
          rw [hgn] at h
          simp only [] at h
          rw [next_pack_step_swIn_true] at h
          simp only [Except.ok.injEq, Prod.mk.injEq] at h
          obtain ⟨e1, e2, e3, e4⟩ := h
          subst e1; subst e2; subst e3; subst e4
          refine ⟨fun _ => ⟨hswf, hpm⟩, ?_, by simp [hswf], ?_⟩
          · intro hnf
            exact absurd hnf (by simp)
          · intro hpf
            exact absurd hpf (by simp)
  · rw [if_neg hg1] at h
    obtain ⟨e3, hnext, hsw2, hquiet⟩ :=
      next_pack_step_ok_facts settings n keys swIn cur false sw cur2 pf nf h
    subst e3
    refine ⟨fun hpf => absurd hpf (by simp), ?_, by simpa using hsw2, ?_⟩
    · intro hnf
      obtain ⟨hs, hm⟩ := hnext hnf
      exact ⟨hs, rfl, hm⟩
    · intro _ hnf
      exact hquiet hnf

theorem switch_step_fires (settings : Settings) (n : Nat)
    (keys : List String) (cur : Nat) (sw : Bool) (cur2 : Nat) (pf nf : Bool)
    (hm : matchesOpt settings.previous_sound_pack keys = true ∨
      matchesOpt settings.next_sound_pack keys = true)
    (h : switch_step settings n keys false cur =
      Except.ok (sw, cur2, pf, nf)) :
    (pf || nf) = true ∧ sw = true := by
  unfold switch_step at h
  by_cases hg1 :
      (!false && matchesOpt settings.previous_sound_pack keys) = true
  · rw [if_pos hg1] at h
    by_cases hn0 : n = 0
    · rw [if_pos hn0] at h
      simp at h
    · rw [if_neg hn0] at h
      cases hge : settings.sound_packs[prev_pack_index cur n]? with
      | none =>
        rw [hge] at h
        simp at h
      | some entry =>
        rw [hge] at h
        simp only [] at h
        cases hgn : get_name entry with
        | none =>
          rw [hgn] at h
          simp at h
        | some nm =>
          rw [hgn] at h
          simp only [] at h
          rw [next_pack_step_swIn_true] at h
          simp only [Except.ok.injEq, Prod.mk.injEq] at h
          obtain ⟨e1, e2, e3, e4⟩ := h
          subst e1; subst e3; subst e4
          simp
  · rw [if_neg hg1] at h
    rcases hm with hm | hm
    · exact absurd (by simp [hm] :
        (!false && matchesOpt settings.previous_sound_pack keys) = true) hg1
    · unfold next_pack_step at h
      rw [if_pos (by simp [hm])] at h
      by_cases hn0 : n = 0
      · rw [if_pos hn0] at h
        simp at h
      · rw [if_neg hn0] at h
        cases hge : settings.sound_packs[(cur + 1) % n]? with
        | none =>
          rw [hge] at h
          simp at h
        | some entry =>
          rw [hge] at h
          simp only [] at h
          cases hgn : get_name entry with
          | none =>
            rw [hgn] at h
            simp at h
          | some nm =>
            rw [hgn] at h
            simp only [Except.ok.injEq, Prod.mk.injEq] at h
            obtain ⟨e1, e2, e3, e4⟩ := h
            subst e1; subst e3; subst e4
            simp

theorem next_pack_step_bounds (settings : Settings) (n : Nat)
    (keys : List String) (sw1 : Bool) (cur1 : Nat) (pf : Bool)
    (hn : 1 ≤ n) (hcur : cur1 < n)
    (hlen : n = settings.sound_packs.length) :
    next_pack_step settings n keys sw1 cur1 pf ≠
      Except.error PanicKind.remainderByZero ∧
    next_pack_step settings n keys sw1 cur1 pf ≠
      Except.error PanicKind.packIndexOutOfBounds ∧
    ∀ sw cur2 pf2 nf, next_pack_step settings n keys sw1 cur1 pf =
      Except.ok (sw, cur2, pf2, nf) → cur2 < n := by
  have hn0 : n ≠ 0 := by omega
  have hnx : (cur1 + 1) % n < n := Nat.mod_lt _ (by omega)
  have hge : settings.sound_packs[(cur1 + 1) % n]? =
      some (settings.sound_packs[(cur1 + 1) % n]) :=
    List.getElem?_eq_getElem (by omega)
  unfold next_pack_step
  by_cases hg : (!sw1 && matchesOpt settings.next_sound_pack keys) = true
  · rw [if_pos hg, if_neg hn0]
    simp only [hge]
    cases hgn : get_name (settings.sound_packs[(cur1 + 1) % n]) with
    | none =>
      refine ⟨by simp, by simp, ?_⟩
      intro sw cur2 pf2 nf he
      simp at he
    | some nm =>
      refine ⟨by simp, by simp, ?_⟩
      intro sw cur2 pf2 nf he
      simp only [Except.ok.injEq, Prod.mk.injEq] at he
      rw [← he.2.1]
      exact hnx
  · rw [if_neg hg]
    refine ⟨by simp, by simp, ?_⟩
    intro sw cur2 pf2 nf he
    simp only [Except.ok.injEq, Prod.mk.injEq] at he
    rw [← he.2.1]
    exact hcur

theorem switch_step_bounds (settings : Settings) (n : Nat)
    (keys : List String) (swIn : Bool) (cur : Nat)
    (hn : 1 ≤ n) (hcur : cur < n)
    (hlen : n = settings.sound_packs.length) :
    switch_step settings n keys swIn cur ≠
      Except.error PanicKind.remainderByZero ∧
    switch_step settings n keys swIn cur ≠
      Except.error PanicKind.packIndexOutOfBounds ∧
    ∀ sw cur2 pf nf, switch_step settings n keys swIn cur =
      Except.ok (sw, cur2, pf, nf) → cur2 < n := by
  have hn0 : n ≠ 0 := by omega
  have hprev : prev_pack_index cur n < n := Nat.mod_lt _ (by omega)
  have hge : settings.sound_packs[prev_pack_index cur n]? =
      some (settings.sound_packs[prev_pack_index cur n]) :=
    List.getElem?_eq_getElem (by omega)
  unfold switch_step
  by_cases hg1 : (!swIn && matchesOpt settings.previous_sound_pack keys) = true
  · rw [if_pos hg1, if_neg hn0]
    simp only [hge]
    cases hgn : get_name (settings.sound_packs[prev_pack_index cur n]) with
    | none =>
      refine ⟨by simp, by simp, ?_⟩
      intro sw cur2 pf nf he
      simp at he
    | some nm =>
      exact next_pack_step_bounds settings n keys true
        (prev_pack_index cur n) true hn hprev hlen
  · rw [if_neg hg1]
    exact next_pack_step_bounds settings n keys swIn cur false hn hcur hlen

theorem switch_step_ok_of_names (settings : Settings) (n : Nat)
    (keys : List String) (swIn : Bool) (cur : Nat)
    (hn : 1 ≤ n) (hcur : cur < n)
    (hlen : n = settings.sound_packs.length)
    (hname : ∀ e ∈ settings.sound_packs, (get_name e).isSome = true) :
    ∃ sw cur2 pf nf, switch_step settings n keys swIn cur =
      Except.ok (sw, cur2, pf, nf) ∧ cur2 < n := by
  have hn0 : n ≠ 0 := by omega
  have hprev : prev_pack_index cur n < n := Nat.mod_lt _ (by omega)
  have hnps : ∀ sw1 cur1 pf, cur1 < n →
      ∃ sw cur2 pf2 nf, next_pack_step settings n keys sw1 cur1 pf =
        Except.ok (sw, cur2, pf2, nf) ∧ cur2 < n := by
    intro sw1 cur1 pf hcur1
    have hnx : (cur1 + 1) % n < n := Nat.mod_lt _ (by omega)
    have hge : settings.sound_packs[(cur1 + 1) % n]? =
        some (settings.sound_packs[(cur1 + 1) % n]) :=
      List.getElem?_eq_getElem (by omega)
    unfold next_pack_step
    by_cases hg : (!sw1 && matchesOpt settings.next_sound_pack keys) = true
    · rw [if_pos hg, if_neg hn0]
      simp only [hge]
      have hmem : settings.sound_packs[(cur1 + 1) % n] ∈
          settings.sound_packs := List.getElem_mem (by omega)
      obtain ⟨nm, hnm⟩ := Option.isSome_iff_exists.mp (hname _ hmem)
      rw [hnm]
      exact ⟨true, (cur1 + 1) % n, pf, true, rfl, hnx⟩
    · rw [if_neg hg]
      exact ⟨sw1, cur1, pf, false, rfl, hcur1⟩
  unfold switch_step
  by_cases hg1 : (!swIn && matchesOpt settings.previous_sound_pack keys) = true
  · rw [if_pos hg1, if_neg hn0]
    have hge : settings.sound_packs[prev_pack_index cur n]? =
        some (settings.sound_packs[prev_pack_index cur n]) :=
      List.getElem?_eq_getElem (by omega)
    simp only [hge]
    have hmem : settings.sound_packs[prev_pack_index cur n] ∈
        settings.sound_packs := List.getElem_mem (by omega)
    obtain ⟨nm, hnm⟩ := Option.isSome_iff_exists.mp (hname _ hmem)
    rw [hnm]
    exact hnps true (prev_pack_index cur n) true hprev
  · rw [if_neg hg1]
    exact hnps swIn cur false hcur

/-! ## Lemmas about `resolve_params` and `playback_step` -/

theorem resolve_params_isSome (settings : Settings) (idx : Nat)
    (h : idx < settings.sound_packs.length) :
    ∃ out, resolve_params settings idx = some out := by
  unfold resolve_params
  rw [List.getElem?_eq_getElem h]
  cases settings.sound_packs[idx] with
  | Basic path => exact ⟨_, rfl⟩
  | Advanced name a b c d e => exact ⟨_, rfl⟩

theorem playback_step_ok (settings : Settings) (packs : List Nat) (cur : Nat)
    (pitch lp now rand : ℚ)
    (hcur : cur < packs.length)
    (hlen : packs.length = settings.sound_packs.length)
    (hpacks : ∀ m ∈ packs, 1 ≤ m)
    (hr0 : 0 ≤ rand) (hr1 : rand < 1) :
    ∃ ps pr st ft v,
      resolve_params settings cur = some (v, ps, pr, st, ft) ∧
      playback_step settings packs cur pitch lp now rand =
        Except.ok (pitch_update (decide (now - lp < ms_threshold ft))
          pitch ps pr st, now) := by
  obtain ⟨⟨v, ps, pr, st, ft⟩, hres⟩ :=
    resolve_params_isSome settings cur (hlen ▸ hcur)
  have hpk : packs[cur]? = some packs[cur] := List.getElem?_eq_getElem hcur
  have hp1 : 1 ≤ packs[cur] := hpacks _ (List.getElem_mem hcur)
  have hfloor : (Int.floor (rand * (packs[cur] : ℚ))).toNat < packs[cur] := by
    have hlt : rand * (packs[cur] : ℚ) < (packs[cur] : ℚ) := by
      have hc0 : (0 : ℚ) < (packs[cur] : ℚ) := by exact_mod_cast hp1
      nlinarith
    have hfl : Int.floor (rand * (packs[cur] : ℚ)) < ((packs[cur] : ℕ) : ℤ) :=
      Int.floor_lt.mpr (by exact_mod_cast hlt)
    have hiff : (Int.floor (rand * (packs[cur] : ℚ))).toNat < packs[cur] ↔
        Int.floor (rand * (packs[cur] : ℚ)) < ((packs[cur] : ℕ) : ℤ) :=
      Int.toNat_lt' (by omega)
    exact hiff.mpr hfl
  refine ⟨ps, pr, st, ft, v, hres, ?_⟩
  unfold playback_step
  rw [hpk, hres]
  simp only []
  rw [if_neg (by omega)]

theorem playback_step_no_pack_panic (settings : Settings) (packs : List Nat)
    (cur : Nat) (pitch lp now rand : ℚ)
    (hcur : cur < packs.length)
    (hlen : packs.length = settings.sound_packs.length) :
    playback_step settings packs cur pitch lp now rand ≠
      Except.error PanicKind.packIndexOutOfBounds := by
  obtain ⟨out, hres⟩ := resolve_params_isSome settings cur (hlen ▸ hcur)
  obtain ⟨v, ps, pr, st, ft⟩ := out
  have hpk : packs[cur]? = some packs[cur] := List.getElem?_eq_getElem hcur
  unfold playback_step
  rw [hpk, hres]
  simp only []
  by_cases hle :
      packs[cur] ≤ (Int.floor (rand * ((packs[cur] : ℕ) : ℚ))).toNat
  · rw [if_pos hle]
    simp
  · rw [if_neg hle]
    simp

/-! ## The shape of a non-terminating, non-panicking tick -/

theorem tick_ok_spec (settings : Settings) (packs : List Nat)
    (s : LoopState) (i : TickInput) (s1 : LoopState) (ev : TickEvents)
    (h : tick settings packs s i = TickResult.ok s1 ev) :
    ev.toggle_fired = (!s.toggled && matchesOpt settings.toggle i.keys) ∧
    s1.toggled = (if i.keys.length = 0 then false
      else (s.toggled || (!s.toggled && matchesOpt settings.toggle i.keys))) ∧
    s1.active = (if (!s.toggled && matchesOpt settings.toggle i.keys) = true
      then !s.active else s.active) ∧
    s1.previous_key_amt = (if s1.active = true then i.keys.length
      else s.previous_key_amt) ∧
    switch_step settings packs.length i.keys
        (if i.keys.length = 0 then false else s.switched_pack)
        s.current_sound_pack =
      Except.ok (s1.switched_pack, s1.current_sound_pack,
        ev.prev_fired, ev.next_fired) ∧
    ev.played = (s1.active && decide (s.previous_key_amt < i.keys.length)) ∧
    (ev.played = true →
      playback_step settings packs s1.current_sound_pack s.pitch
          s.last_press i.now i.rand =
        Except.ok (s1.pitch, s1.last_press) ∧ s1.last_press = i.now) ∧
    (ev.played = false → s1.pitch = s.pitch ∧ s1.last_press = s.last_press) := by
  unfold tick at h
  by_cases ht : matchesOpt settings.terminate i.keys = true
  · rw [if_pos ht] at h
    exact absurd h (by simp)
  · rw [if_neg ht] at h
    simp only [] at h
    cases hsw : switch_step settings packs.length i.keys
        (if i.keys.length = 0 then false else s.switched_pack)
        s.current_sound_pack with
    | error k =>
      rw [hsw] at h
      simp at h
    | ok out =>
      obtain ⟨sw, cur, pf, nf⟩ := out
      rw [hsw] at h
      simp only [] at h
      cases hav : (if (!s.toggled && matchesOpt settings.toggle i.keys) = true
          then !s.active else s.active) with
      | false =>
        rw [hav, if_pos rfl] at h
        simp only [TickResult.ok.injEq] at h
        obtain ⟨h1, h2⟩ := h
        subst h1
        subst h2
        refine ⟨rfl, rfl, rfl, ?_, rfl, ?_, ?_, fun _ => ⟨rfl, rfl⟩⟩
        · simp
        · simp
        · intro hp
          exact absurd hp (by simp)
      | true =>
        rw [hav, if_neg (by simp)] at h
        by_cases hpress : s.previous_key_amt < i.keys.length
        · rw [if_pos hpress] at h
          cases hpb : playback_step settings packs cur s.pitch s.last_press
              i.now i.rand with
          | error k =>
            rw [hpb] at h
            simp at h
          | ok out2 =>
            obtain ⟨p1, lp1⟩ := out2
            rw [hpb] at h
            simp only [TickResult.ok.injEq] at h
            obtain ⟨h1, h2⟩ := h
            subst h1
            subst h2
            have hlp : lp1 = i.now := by
              unfold playback_step at hpb
              cases hk : packs[cur]? with
              | none =>
                rw [hk] at hpb
                simp at hpb
              | some packLen =>
                rw [hk] at hpb
                cases hres : resolve_params settings cur with
                | none =>
                  rw [hres] at hpb
                  simp at hpb
                | some out3 =>
                  obtain ⟨v, ps, pr, st, ft⟩ := out3
                  rw [hres] at hpb
                  simp only [] at hpb
                  by_cases hle : packLen ≤
                      (Int.floor (i.rand * (packLen : ℚ))).toNat
                  · rw [if_pos hle] at hpb
                    simp at hpb
                  · rw [if_neg hle] at hpb
                    simp only [Except.ok.injEq, Prod.mk.injEq] at hpb
                    exact hpb.2.symm
            refine ⟨rfl, rfl, rfl, ?_, rfl, ?_, ?_, ?_⟩
            · simp
            · simp [hpress]
            · intro _
              exact ⟨hpb, hlp⟩
            · intro hp
              exact absurd hp (by simp)
        · rw [if_neg hpress] at h
          simp only [TickResult.ok.injEq] at h
          obtain ⟨h1, h2⟩ := h
          subst h1
          subst h2
          refine ⟨rfl, rfl, rfl, ?_, rfl, ?_, ?_, fun _ => ⟨rfl, rfl⟩⟩
          · simp
          · simp [hpress]
          · intro hp
            exact absurd hp (by simp)

theorem tick_panic_cases (settings : Settings) (packs : List Nat)
    (s : LoopState) (i : TickInput) (k : PanicKind)
    (h : tick settings packs s i = TickResult.panic k) :
    switch_step settings packs.length i.keys
        (if i.keys.length = 0 then false else s.switched_pack)
        s.current_sound_pack = Except.error k ∨
    (∃ sw cur pf nf, switch_step settings packs.length i.keys
        (if i.keys.length = 0 then false else s.switched_pack)
        s.current_sound_pack = Except.ok (sw, cur, pf, nf) ∧
      playback_step settings packs cur s.pitch s.last_press i.now i.rand =
        Except.error k) := by
  unfold tick at h
  by_cases ht : matchesOpt settings.terminate i.keys = true
  · rw [if_pos ht] at h
    exact absurd h (by simp)
  · rw [if_neg ht] at h
    simp only [] at h
    cases hsw : switch_step settings packs.length i.keys
        (if i.keys.length = 0 then false else s.switched_pack)
        s.current_sound_pack with
    | error k2 =>
      rw [hsw] at h
      simp only [TickResult.panic.injEq] at h
      subst h
      exact Or.inl rfl
    | ok out =>
      obtain ⟨sw, cur, pf, nf⟩ := out
      rw [hsw] at h
      simp only [] at h
      cases hav : (if (!s.toggled && matchesOpt settings.toggle i.keys) = true
          then !s.active else s.active) with
      | false =>
        rw [hav, if_pos rfl] at h
        exact absurd h (by simp)
      | true =>
        rw [hav, if_neg (by simp)] at h
        by_cases hpress : s.previous_key_amt < i.keys.length
        · rw [if_pos hpress] at h
          cases hpb : playback_step settings packs cur s.pitch s.last_press
              i.now i.rand with
          | error k2 =>
            rw [hpb] at h
            simp only [TickResult.panic.injEq] at h
            subst h
            exact Or.inr ⟨sw, cur, pf, nf, rfl, hpb⟩
          | ok out2 =>
            obtain ⟨p1, lp1⟩ := out2
            rw [hpb] at h
            exact absurd h (by simp)
        · rw [if_neg hpress] at h
          exact absurd h (by simp)

theorem tick_switch_panic (settings : Settings) (packs : List Nat)
    (s : LoopState) (i : TickInput) (k : PanicKind)
    (ht : matchesOpt settings.terminate i.keys = false)
    (hsw : switch_step settings packs.length i.keys
        (if i.keys.length = 0 then false else s.switched_pack)
        s.current_sound_pack = Except.error k) :
    tick settings packs s i = TickResult.panic k := by
  unfold tick
  rw [if_neg (by simp [ht])]
  simp only []
  rw [hsw]

theorem tick_playback_panic (settings : Settings) (packs : List Nat)
    (s : LoopState) (i : TickInput) (k : PanicKind)
    (sw : Bool) (cur : Nat) (pf nf : Bool)
    (ht : matchesOpt settings.terminate i.keys = false)
    (hsw : switch_step settings packs.length i.keys
        (if i.keys.length = 0 then false else s.switched_pack)
        s.current_sound_pack = Except.ok (sw, cur, pf, nf))
    (ha : (if (!s.toggled && matchesOpt settings.toggle i.keys) = true
      then !s.active else s.active) = true)
    (hpress : s.previous_key_amt < i.keys.length)
    (hpb : playback_step settings packs cur s.pitch s.last_press i.now
      i.rand = Except.error k) :
    tick settings packs s i = TickResult.panic k := by
  unfold tick
  rw [if_neg (by simp [ht])]
  simp only []
  rw [hsw]
  simp only []
  rw [ha, if_neg (by simp), if_pos hpress, hpb]

theorem playback_step_pitch (settings : Settings) (packs : List Nat)
    (cur : Nat) (pitch lp now rand p1 lp1 : ℚ)
    (h : playback_step settings packs cur pitch lp now rand =
      Except.ok (p1, lp1))
    (v ps pr st ft : ℚ)
    (hres : resolve_params settings cur = some (v, ps, pr, st, ft)) :
    p1 = pitch_update (decide (now - lp < ms_threshold ft)) pitch ps pr st ∧
    lp1 = now := by
  unfold playback_step at h
  cases hk : packs[cur]? with
  | none =>
    rw [hk] at h
    simp at h
  | some packLen =>
    rw [hk, hres] at h
    simp only [] at h
    by_cases hle : packLen ≤ (Int.floor (rand * (packLen : ℚ))).toNat
    · rw [if_pos hle] at h
      simp at h
    · rw [if_neg hle] at h
      simp only [Except.ok.injEq, Prod.mk.injEq] at h
      exact ⟨h.1.symm, h.2.symm⟩

/-- The match of a nonempty (or absent) binding against an empty
held-key set always fails. -/
theorem matchesOpt_nil (kb : Option (List String)) (h : kb ≠ some []) :
    matchesOpt kb [] = false := by
  cases kb with
  | none => rfl
  | some l =>
    cases l with
    | nil => exact absurd rfl h
    | cons a t => simp [matchesOpt, binding_matches]

/-! ## C3: the previous-key-count update -/

/-- C3 counterexample: an inactive tick that samples one held key keeps
previous_held_key_count at 0 rather than setting it to 1 — the
inactivity `continue` skips step 9 along with playback. -/
theorem inactive_tick_count_cex :
    tick { sound_packs := [SoundPackSettings.Basic "a"],
           previous_sound_pack := none,
           next_sound_pack := none,
           terminate := none,
           toggle := none,
           volume := none,
           pitch_start := none,
           pitch_range := none,
           pitch_steps := none,
           fast_threshold := none }
        [1] ⟨false, false, false, 0, 0, 1/2, 0⟩ ⟨["A"], 0, 0⟩ =
      TickResult.ok ⟨false, false, false, 0, 0, 1/2, 0⟩
        ⟨false, false, false, false⟩ ∧
    (0 : Nat) ≠ (["A"] : List String).length := by
  decide

/-- C3 (amended): at the end of every non-terminating, non-panicking
tick, previous_held_key_count equals the held-key count sampled that
tick when the tick ends active, and keeps its prior value when the tick
ends inactive: the inactivity short-circuit skips steps 7-9, including
the step-9 count update, not just playback. -/
theorem previous_key_amt_update (settings : Settings) (packs : List Nat)
    (s : LoopState) (i : TickInput) (s1 : LoopState) (ev : TickEvents)
    (h : tick settings packs s i = TickResult.ok s1 ev) :
    s1.previous_key_amt =
      (if s1.active = true then i.keys.length else s.previous_key_amt) :=
  (tick_ok_spec settings packs s i s1 ev h).2.2.2.1

/-- C3 witness: an active tick with one new held key sets the count
to 1. -/
theorem previous_key_amt_update_witness :
    (⟨true, false, false, 0, 1, 101/200, 0⟩ : LoopState).previous_key_amt =
      (if (⟨true, false, false, 0, 1, 101/200, 0⟩ : LoopState).active = true
        then (⟨["A"], 0, 0⟩ : TickInput).keys.length
        else (⟨true, false, false, 0, 0, 1/2, 0⟩ :
          LoopState).previous_key_amt) :=
  previous_key_amt_update
    { sound_packs := [SoundPackSettings.Basic "a"],
      previous_sound_pack := none,
      next_sound_pack := none,
      terminate := none,
      toggle := none,
      volume := none,
      pitch_start := none,
      pitch_range := none,
      pitch_steps := none,
      fast_threshold := none }
    [1] ⟨true, false, false, 0, 0, 1/2, 0⟩ ⟨["A"], 0, 0⟩
    ⟨true, false, false, 0, 1, 101/200, 0⟩ ⟨false, false, false, true⟩
    (by decide)

/-! ## C7: the pack-index invariant -/

/-- C7: with at least one loaded pack, a current index below the pack
count, and the loaded packs aligned with the settings list, a tick never
raises an out-of-bounds pack access (every pack/name access within the
tick is in bounds), and any non-terminating, non-panicking tick keeps
the index below the pack count. -/
theorem pack_index_invariant (settings : Settings) (packs : List Nat)
    (s : LoopState) (i : TickInput)
    (hn : 1 ≤ packs.length)
    (hcur : s.current_sound_pack < packs.length)
    (hlen : packs.length = settings.sound_packs.length) :
    tick settings packs s i ≠
      TickResult.panic PanicKind.packIndexOutOfBounds ∧
    ∀ s1 ev, tick settings packs s i = TickResult.ok s1 ev →
      s1.current_sound_pack < packs.length := by
  obtain ⟨hb1, hb2, hb3⟩ :=
    switch_step_bounds settings packs.length i.keys
      (if i.keys.length = 0 then false else s.switched_pack)
      s.current_sound_pack hn hcur hlen
  constructor
  · intro h
    rcases tick_panic_cases settings packs s i _ h with herr | ⟨sw2, cur3,
        pf2, nf2, hok, hpb⟩
    · exact hb2 herr
    · exact playback_step_no_pack_panic settings packs cur3 s.pitch
        s.last_press i.now i.rand (hb3 _ _ _ _ hok) hlen hpb
  · intro s1 ev h
    exact hb3 _ _ _ _ (tick_ok_spec settings packs s i s1 ev h).2.2.2.2.1

/-- C7 witness: a concrete in-bounds tick. -/
theorem pack_index_invariant_witness :
    tick { sound_packs := [SoundPackSettings.Basic "a"],
           previous_sound_pack := none,
           next_sound_pack := none,
           terminate := none,
           toggle := none,
           volume := none,
           pitch_start := none,
           pitch_range := none,
           pitch_steps := none,
           fast_threshold := none }
        [1] ⟨false, false, false, 0, 0, 1/2, 0⟩ ⟨["A"], 0, 0⟩ ≠
      TickResult.panic PanicKind.packIndexOutOfBounds :=
  (pack_index_invariant
    { sound_packs := [SoundPackSettings.Basic "a"],
      previous_sound_pack := none,
      next_sound_pack := none,
      terminate := none,
      toggle := none,
      volume := none,
      pitch_start := none,
      pitch_range := none,
      pitch_steps := none,
      fast_threshold := none }
    [1] ⟨false, false, false, 0, 0, 1/2, 0⟩ ⟨["A"], 0, 0⟩
    (by decide) (by decide) (by decide)).1

/-! ## C9: tick safety -/

/-- C9 counterexample: a non-empty pack list does not guarantee a tick
completes: with one loaded pack holding zero clips, a new press while
active panics indexing the clip (`random * 0` floors to index 0 of an
empty pack). -/
theorem empty_pack_panic_cex :
    (1 : Nat) ≤ ([0] : List Nat).length ∧
    tick { sound_packs := [SoundPackSettings.Basic "a"],
           previous_sound_pack := none,
           next_sound_pack := none,
           terminate := none,
           toggle := none,
           volume := none,
           pitch_start := none,
           pitch_range := none,
           pitch_steps := none,
           fast_threshold := none }
        [0] ⟨true, false, false, 0, 0, 1/2, 0⟩ ⟨["A"], 0, 0⟩ =
      TickResult.panic PanicKind.clipIndexOutOfBounds := by
  decide

/-- C9 (amended): a tick completes without failure provided the loaded
pack list is non-empty, every loaded pack holds at least one clip, the
display-name byte slice of every configured pack entry lands on a
character boundary (true in particular for all-ASCII pack paths), the
current index is in bounds, the loaded packs align with the settings
list, and the random draw lies in [0, 1); with an empty pack list, a
tick whose previous- or next-pack binding matches fails with a
remainder-by-zero, and a tick with a new press while active (and no
pack-switch or terminate match) fails with an out-of-bounds pack
access. -/
theorem tick_safety (settings : Settings) (packs : List Nat)
    (s : LoopState) (i : TickInput) :
    (1 ≤ packs.length → s.current_sound_pack < packs.length →
      packs.length = settings.sound_packs.length → (∀ m ∈ packs, 1 ≤ m) →
      (∀ e ∈ settings.sound_packs, (get_name e).isSome = true) →
      0 ≤ i.rand → i.rand < 1 →
      ∀ k, tick settings packs s i ≠ TickResult.panic k) ∧
    (packs = [] → s.switched_pack = false →
      matchesOpt settings.terminate i.keys = false →
      (matchesOpt settings.previous_sound_pack i.keys = true ∨
        matchesOpt settings.next_sound_pack i.keys = true) →
      tick settings packs s i =
        TickResult.panic PanicKind.remainderByZero) ∧
    (packs = [] → matchesOpt settings.terminate i.keys = false →
      matchesOpt settings.previous_sound_pack i.keys = false →
      matchesOpt settings.next_sound_pack i.keys = false →
      (if (!s.toggled && matchesOpt settings.toggle i.keys) = true
        then !s.active else s.active) = true →
      s.previous_key_amt < i.keys.length →
      tick settings packs s i =
        TickResult.panic PanicKind.packIndexOutOfBounds) := by
  refine ⟨?_, ?_, ?_⟩
  · intro hn hcur hlen hpacks hname hr0 hr1 k h
    obtain ⟨sw, cur2, pf, nf, hsw, hcur2⟩ :=
      switch_step_ok_of_names settings packs.length i.keys
        (if i.keys.length = 0 then false else s.switched_pack)
        s.current_sound_pack hn hcur hlen hname
    rcases tick_panic_cases settings packs s i k h with herr | ⟨sw2, cur3,
        pf2, nf2, hok, hpb⟩
    · rw [hsw] at herr
      exact absurd herr (by simp)
    · rw [hsw] at hok
      simp only [Except.ok.injEq, Prod.mk.injEq] at hok
      obtain ⟨e1, e2, e3, e4⟩ := hok
      subst e2
      obtain ⟨ps, pr, st, ft, v, hres, hpbok⟩ :=
        playback_step_ok settings packs cur2 s.pitch s.last_press i.now
          i.rand hcur2 hlen hpacks hr0 hr1
      rw [hpbok] at hpb
      exact absurd hpb (by simp)
  · intro hempty hswf ht hm
    apply tick_switch_panic settings packs s i _ ht
    subst hempty
    have hsw0 : (if i.keys.length = 0 then false else s.switched_pack)
        = false := by
      rw [hswf]
      split
      · rfl
      · rfl
    rw [hsw0]
    simp only [List.length_nil]
    unfold switch_step next_pack_step
    rcases hm with hm | hm
    · rw [if_pos (by simp [hm]), if_pos rfl]
    · by_cases hg1 :
          (!false && matchesOpt settings.previous_sound_pack i.keys) = true
      · rw [if_pos hg1, if_pos rfl]
      · rw [if_neg hg1, if_pos (by simp [hm]), if_pos rfl]
  · intro hempty ht hp hn2 ha hpress
    have hsw := switch_step_no_match settings packs.length i.keys
      (if i.keys.length = 0 then false else s.switched_pack)
      s.current_sound_pack hp hn2
    apply tick_playback_panic settings packs s i _ _ _ _ _ ht hsw ha hpress
    subst hempty
    unfold playback_step
    rfl

/-- C9 witness: with an empty pack list and the previous-pack binding
held, the tick panics with remainder-by-zero. -/
theorem tick_safety_witness :
    tick { sound_packs := [],
           previous_sound_pack := some ["F4"],
           next_sound_pack := none,
           terminate := none,
           toggle := none,
           volume := none,
           pitch_start := none,
           pitch_range := none,
           pitch_steps := none,
           fast_threshold := none }
        [] ⟨true, false, false, 0, 0, 1/2, 0⟩ ⟨["F4"], 0, 0⟩ =
      TickResult.panic PanicKind.remainderByZero :=
  (tick_safety
    { sound_packs := [],
      previous_sound_pack := some ["F4"],
      next_sound_pack := none,
      terminate := none,
      toggle := none,
      volume := none,
      pitch_start := none,
      pitch_range := none,
      pitch_steps := none,
      fast_threshold := none }
    [] ⟨true, false, false, 0, 0, 1/2, 0⟩
    ⟨["F4"], 0, 0⟩).2.1 rfl rfl (by decide) (Or.inl (by decide))

/-! ## C6: the pitch update -/


/-- C6 counterexample: with fast_threshold = 0.0015 s and an elapsed
time of 0.0012 s, the claim's `fast := elapsed < fast_threshold` holds
and the pitch is below the ceiling, yet the tick resets the pitch to
pitch_start instead of incrementing it: the code compares the elapsed
time against the threshold truncated to whole milliseconds (1 ms), not
against fast_threshold seconds. -/
theorem fast_threshold_truncation_cex :
    ((3/2500 : ℚ) - 0 < 3/2000) ∧ ((1/2 : ℚ) < 1/2 + 1/2) ∧
    resolve_params { sound_packs := [SoundPackSettings.Basic "a"],
                     previous_sound_pack := none,
                     next_sound_pack := none,
                     terminate := none,
                     toggle := none,
                     volume := none,
                     pitch_start := none,
                     pitch_range := none,
                     pitch_steps := none,
                     fast_threshold := some (3/2000) } 0 =
      some (1, 1/2, 1/2, 1/200, 3/2000) ∧
    tick { sound_packs := [SoundPackSettings.Basic "a"],
           previous_sound_pack := none,
           next_sound_pack := none,
           terminate := none,
           toggle := none,
           volume := none,
           pitch_start := none,
           pitch_range := none,
           pitch_steps := none,
           fast_threshold := some (3/2000) }
        [1] ⟨true, false, false, 0, 0, 1/2, 0⟩ ⟨["A"], 3/2500, 0⟩ =
      TickResult.ok ⟨true, false, false, 0, 1, 1/2, 3/2500⟩
        ⟨false, false, false, true⟩ ∧
    (1/2 : ℚ) ≠ 1/2 + 1/200 := by
  decide

/-- C6 (amended): on a played press, with fast computed as
`elapsed < floor(fast_threshold * 1000) milliseconds` (the code's
truncated threshold), the pitch update has exactly three branches: fast
and below the ceiling increments by pitch_steps (and may land one step
past the ceiling), not fast resets to exactly pitch_start regardless of
the prior value, and fast at or above the ceiling leaves the pitch
unchanged. -/
theorem pitch_three_branches (settings : Settings) (packs : List Nat)
    (s : LoopState) (i : TickInput) (s1 : LoopState) (ev : TickEvents)
    (h : tick settings packs s i = TickResult.ok s1 ev)
    (hp : ev.played = true)
    (v ps pr st ft : ℚ)
    (hres : resolve_params settings s1.current_sound_pack =
      some (v, ps, pr, st, ft)) :
    ((i.now - s.last_press < ms_threshold ft ∧ s.pitch < ps + pr) →
      s1.pitch = s.pitch + st) ∧
    (¬ i.now - s.last_press < ms_threshold ft → s1.pitch = ps) ∧
    ((i.now - s.last_press < ms_threshold ft ∧ ps + pr ≤ s.pitch) →
      s1.pitch = s.pitch) := by
  obtain ⟨-, -, -, -, -, -, hplay, -⟩ := tick_ok_spec settings packs s i s1 ev h
  obtain ⟨hpb, hlp⟩ := hplay hp
  obtain ⟨hp1, -⟩ := playback_step_pitch settings packs s1.current_sound_pack
    s.pitch s.last_press i.now i.rand s1.pitch s1.last_press hpb v ps pr st
    ft hres
  refine ⟨?_, ?_, ?_⟩
  · rintro ⟨hfast, hlt⟩
    rw [hp1]
    unfold pitch_update
    rw [if_pos ⟨hlt, decide_eq_true hfast⟩]
  · intro hnf
    rw [hp1]
    unfold pitch_update
    rw [if_neg (fun hc => hnf (of_decide_eq_true hc.2)),
      if_pos (decide_eq_false hnf)]
  · rintro ⟨hfast, hge⟩
    rw [hp1]
    unfold pitch_update
    rw [if_neg (fun hc => absurd hc.1 (not_lt.mpr hge)),
      if_neg (by simp [decide_eq_true hfast])]


/-- C6 witness: a concrete fast press below the ceiling increments the
pitch by one step (1/2 to 101/200). -/
theorem pitch_three_branches_witness :
    (⟨true, false, false, 0, 1, 101/200, 0⟩ : LoopState).pitch =
      (⟨true, false, false, 0, 0, 1/2, 0⟩ : LoopState).pitch + 1/200 :=
  (pitch_three_branches
    { sound_packs := [SoundPackSettings.Basic "a"],
      previous_sound_pack := none,
      next_sound_pack := none,
      terminate := none,
      toggle := none,
      volume := none,
      pitch_start := none,
      pitch_range := none,
      pitch_steps := none,
      fast_threshold := none }
    [1] ⟨true, false, false, 0, 0, 1/2, 0⟩ ⟨["A"], 0, 0⟩
    ⟨true, false, false, 0, 1, 101/200, 0⟩ ⟨false, false, false, true⟩
    (by decide) rfl 1 (1/2) (1/2) (1/200) 1
    (by decide)).1
    ⟨by decide, by decide⟩

/-! ## C2: the display name -/

theorem boundary_char_index_ascii :
    ∀ (cs : List Char) (k : Nat), (∀ c ∈ cs, c.utf8Size = 1) →
      k ≤ cs.length → boundary_char_index cs k = some k := by
  intro cs
  induction cs with
  | nil =>
    intro k _ hk
    have hk0 : k = 0 := by simpa using hk
    subst hk0
    rfl
  | cons c rest ih =>
    intro k hascii hk
    cases k with
    | zero => rfl
    | succ k0 =>
      unfold boundary_char_index
      rw [hascii c (by simp)]
      rw [if_pos (by omega)]
      simp only [Nat.add_sub_cancel]
      rw [ih k0 (fun x hx => hascii x (by simp [hx])) (by simpa using hk)]
      rfl

/-- C2 counterexample: for the pack path `a/b` the display name computed
by `get_name` is `/b`, not the text strictly after the last separator
(`b`): the byte slice starts at the offset of the last separator itself.
The slice offset is a character count used as a byte index, so on
non-ASCII paths the result drifts further (`日本語/sounds` yields
`本語/sounds`) or the slice panics off a character boundary (`é/x`). -/
theorem get_name_keeps_separator_cex :
    get_name (SoundPackSettings.Basic "a/b") = some "/b" ∧
    get_name (SoundPackSettings.Basic "a/b") ≠ some "b" ∧
    get_name (SoundPackSettings.Basic "日本語/sounds") =
      some "本語/sounds" ∧
    get_name (SoundPackSettings.Basic "é/x") = none := by
  decide

/-- C2 (amended): `get_name` slices the path from the byte offset
`char count - 1 - (reversed index of the last separator)`.  When the
path has no separator it returns the whole path; when every character
of the path is a single UTF-8 byte, the result is the suffix starting
at (and including) the last `/` or `\` — the separator is part of the
display name.  (On multi-byte paths the byte offset can fall inside a
character, where the program panics.) -/
theorem get_name_last_segment (sp : SoundPackSettings) :
    ((get_path sp).toList.any isSeparator = false →
      get_name sp = some (get_path sp)) ∧
    ((get_path sp).toList.any isSeparator = true →
      (∀ c ∈ (get_path sp).toList, c.utf8Size = 1) →
      ∃ pre c tail, (get_path sp).toList = pre ++ c :: tail ∧
        isSeparator c = true ∧ tail.all (fun x => !isSeparator x) = true ∧
        get_name sp = some (String.mk (c :: tail))) := by
  cases hpos : position isSeparator (get_path sp).toList.reverse with
  | none =>
    have hall := position_eq_none.mp hpos
    constructor
    · intro _
      simp only [get_name, hpos]
    · intro hany _
      exfalso
      obtain ⟨c, hc, hpc⟩ := List.any_eq_true.mp hany
      have := hall c (List.mem_reverse.mpr hc)
      rw [this] at hpc
      exact Bool.false_ne_true hpc
  | some idx =>
    obtain ⟨l1, c, l2, hsplit, hp, hall, hlen⟩ := position_eq_some hpos
    have hcs : (get_path sp).toList = l2.reverse ++ c :: l1.reverse := by
      have h2 := congrArg List.reverse hsplit
      simp only [List.reverse_reverse, List.reverse_append,
        List.reverse_cons] at h2
      rw [h2]
      simp [List.append_assoc]
    have hlen2 : (get_path sp).toList.length = l1.length + l2.length + 1 := by
      have h4 := congrArg List.length hsplit
      rw [List.length_reverse, List.length_append, List.length_cons] at h4
      omega
    have hdroplen : (get_path sp).toList.length - idx - 1 = l2.length := by
      omega
    have hdrop : (get_path sp).toList.drop l2.length = c :: l1.reverse := by
      conv_lhs => rw [hcs]
      have hlr : l2.length = l2.reverse.length := (List.length_reverse l2).symm
      rw [hlr, List.drop_left]
    constructor
    · intro hnone
      exfalso
      have h3 := List.any_eq_false.mp hnone c
      have hcm : c ∈ (get_path sp).toList := by
        rw [hcs]
        exact List.mem_append_right _ (List.mem_cons_self c l1.reverse)
      exact h3 hcm hp
    · intro _ hascii
      have hbnd : boundary_char_index (get_path sp).toList l2.length =
          some l2.length :=
        boundary_char_index_ascii _ _ hascii (by omega)
      refine ⟨l2.reverse, c, l1.reverse, hcs, hp, ?_, ?_⟩
      · rw [List.all_eq_true]
        intro x hx
        have hx1 : x ∈ l1 := List.mem_reverse.mp hx
        simp [hall x hx1]
      · simp only [get_name, hpos]
        rw [hdroplen, hbnd]
        simp only []
        rw [hdrop]

/-- C2 witness: concrete application to the ASCII pack path
`src/packA`. -/
theorem get_name_last_segment_witness :
    ∃ pre c tail,
      (get_path (SoundPackSettings.Basic "src/packA")).toList =
        pre ++ c :: tail ∧
      isSeparator c = true ∧ tail.all (fun x => !isSeparator x) = true ∧
      get_name (SoundPackSettings.Basic "src/packA") =
        some (String.mk (c :: tail)) :=
  (get_name_last_segment (SoundPackSettings.Basic "src/packA")).2
    (by decide) (by decide)

/-! ## C4: exact-set binding match -/

/-- C4: for duplicate-free binding and held-key lists, the match used by
every action check succeeds iff the two are equal as sets; a strict
subset or superset never matches. -/
theorem binding_matches_iff_set_eq (B H : List String)
    (hB : B.Nodup) (hH : H.Nodup) :
    binding_matches B H = true ↔ ∀ k, k ∈ B ↔ k ∈ H := by
  unfold binding_matches
  simp only [Bool.and_eq_true, beq_iff_eq, List.all_eq_true]
  constructor
  · rintro ⟨hlen, hsub⟩ k
    have hsub2 : ∀ x ∈ B, x ∈ H := by
      intro x hx
      have hc := hsub x hx
      simpa using hc
    have h1 : B.toFinset ⊆ H.toFinset := by
      intro a ha
      exact List.mem_toFinset.mpr (hsub2 a (List.mem_toFinset.mp ha))
    have hcard : H.toFinset.card ≤ B.toFinset.card := by
      rw [List.toFinset_card_of_nodup hB, List.toFinset_card_of_nodup hH]
      omega
    have heq := Finset.eq_of_subset_of_card_le h1 hcard
    constructor
    · intro hk
      exact List.mem_toFinset.mp (heq ▸ List.mem_toFinset.mpr hk)
    · intro hk
      exact List.mem_toFinset.mp (heq.symm ▸ List.mem_toFinset.mpr hk)
  · intro hmem
    have heq : B.toFinset = H.toFinset := by
      ext a
      simp only [List.mem_toFinset]
      exact hmem a
    constructor
    · rw [← List.toFinset_card_of_nodup hB, ← List.toFinset_card_of_nodup hH,
        heq]
    · intro x hx
      simpa using (hmem x).mp hx

/-- C4 witness: the binding `[F2, F3]` matches the held set `[F3, F2]`
(same set, different order). -/
theorem binding_matches_iff_set_eq_witness :
    binding_matches ["F2", "F3"] ["F3", "F2"] = true ↔
      ∀ k, k ∈ ["F2", "F3"] ↔ k ∈ ["F3", "F2"] :=
  binding_matches_iff_set_eq ["F2", "F3"] ["F3", "F2"]
    (by decide) (by decide)

/-! ## C1: previous-pack wraparound -/

/-- C1: evaluating the loop at the failing input — two loaded packs,
index 0, previous-pack binding `[F4]` pressed — the code's
previous-pack action leaves the index at 0 (setting it to the pack
count and then reducing modulo the count is a no-op), while the claimed
`(index - 1 + pack_count) mod pack_count` is 1. -/
theorem prev_pack_wraparound_bug :
    tick { sound_packs := [SoundPackSettings.Basic "a",
                           SoundPackSettings.Basic "b"],
           previous_sound_pack := some ["F4"],
           next_sound_pack := none,
           terminate := none,
           toggle := none,
           volume := none,
           pitch_start := none,
           pitch_range := none,
           pitch_steps := none,
           fast_threshold := none }
        [1, 1] ⟨false, false, false, 0, 0, 1/2, 0⟩ ⟨["F4"], 0, 0⟩ =
      TickResult.ok ⟨false, false, true, 0, 0, 1/2, 0⟩
        ⟨false, true, false, false⟩ ∧
    prev_pack_index 0 2 = 0 ∧ (0 + 2 - 1) % 2 = 1 := by
  decide

/-! ## C10: startup state -/

/-- C10: before the first tick the loop is active, at pack index 0, with
zero previous held-key count, both consumed flags clear, and the pitch
taken from the global `pitch_start` (1/2 when absent) — changing the
sound-pack list (and hence any pack-level override) does not change the
initial pitch. -/
theorem init_state_spec (settings : Settings) (t0 : ℚ) :
    (init_state settings t0).active = true ∧
    (init_state settings t0).current_sound_pack = 0 ∧
    (init_state settings t0).previous_key_amt = 0 ∧
    (init_state settings t0).toggled = false ∧
    (init_state settings t0).switched_pack = false ∧
    (init_state settings t0).pitch = settings.pitch_start.getD (1/2) ∧
    ∀ packs2 : List SoundPackSettings,
      (init_state { settings with sound_packs := packs2 } t0).pitch =
        (init_state settings t0).pitch :=
  ⟨rfl, rfl, rfl, rfl, rfl, rfl, fun _ => rfl⟩

/-! ## C8: default-config bootstrap -/

/-- C8: when no config file exists, the synthesized in-memory settings
are exactly the literal defaults (one `assets` pack, bindings F2/F3/F4/
F5, volume 1, pitch_start 0.5, pitch_range 0.5, pitch_steps 0.005,
fast_threshold 1), and the JSON text written to disk deserializes to
exactly those settings. -/
theorem default_config_bootstrap :
    parse_settings default_serialized_config = some default_settings ∧
    default_settings =
      { sound_packs := [SoundPackSettings.Basic "assets"],
        previous_sound_pack := some ["F4"],
        next_sound_pack := some ["F5"],
        terminate := some ["F2"],
        toggle := some ["F3"],
        volume := some 1.0,
        pitch_start := some 0.5,
        pitch_range := some 0.5,
        pitch_steps := some 0.005,
        fast_threshold := some 1.0 } := by
  constructor
  · decide
  · decide

/-! ## Runs of consecutive ticks -/

theorem run_toggled_true (settings : Settings) (packs : List Nat) :
    ∀ (inputs : List TickInput) (s sf : LoopState) (evs : List TickEvents),
      s.toggled = true → (∀ inp ∈ inputs, inp.keys ≠ []) →
      run settings packs s inputs = some (sf, evs) →
      List.countP (fun e => e.toggle_fired) evs = 0 := by
  intro inputs
  induction inputs with
  | nil =>
    intro s sf evs _ _ hrun
    unfold run at hrun
    simp only [Option.some.injEq, Prod.mk.injEq] at hrun
    rw [← hrun.2]
    rfl
  | cons i rest ih =>
    intro s sf evs htog hk hrun
    unfold run at hrun
    cases htick : tick settings packs s i with
    | terminated => rw [htick] at hrun; simp at hrun
    | panic k => rw [htick] at hrun; simp at hrun
    | ok s1 ev =>
      rw [htick] at hrun
      simp only [] at hrun
      cases hrest : run settings packs s1 rest with
      | none => rw [hrest] at hrun; simp at hrun
      | some out =>
        obtain ⟨sf2, evs2⟩ := out
        rw [hrest] at hrun
        simp only [Option.some.injEq, Prod.mk.injEq] at hrun
        obtain ⟨h1, h2⟩ := hrun
        subst h2
        obtain ⟨htf, htg2, -, -, -, -, -, -⟩ :=
          tick_ok_spec settings packs s i s1 ev htick
        have hev : ev.toggle_fired = false := by
          rw [htf, htog]
          rfl
        have hlen0 : ¬ i.keys.length = 0 := by
          have := hk i (by simp)
          simpa [List.length_eq_zero] using this
        have htog1 : s1.toggled = true := by
          rw [htg2, if_neg hlen0, htog]
          rfl
        rw [List.countP_cons,
          ih s1 sf2 evs2 htog1 (fun x hx => hk x (by simp [hx])) hrest]
        simp [hev]

theorem run_switched_true (settings : Settings) (packs : List Nat) :
    ∀ (inputs : List TickInput) (s sf : LoopState) (evs : List TickEvents),
      s.switched_pack = true → (∀ inp ∈ inputs, inp.keys ≠ []) →
      run settings packs s inputs = some (sf, evs) →
      List.countP (fun e => e.prev_fired || e.next_fired) evs = 0 := by
  intro inputs
  induction inputs with
  | nil =>
    intro s sf evs _ _ hrun
    unfold run at hrun
    simp only [Option.some.injEq, Prod.mk.injEq] at hrun
    rw [← hrun.2]
    rfl
  | cons i rest ih =>
    intro s sf evs hswt hk hrun
    unfold run at hrun
    cases htick : tick settings packs s i with
    | terminated => rw [htick] at hrun; simp at hrun
    | panic k => rw [htick] at hrun; simp at hrun
    | ok s1 ev =>
      rw [htick] at hrun
      simp only [] at hrun
      cases hrest : run settings packs s1 rest with
      | none => rw [hrest] at hrun; simp at hrun
      | some out =>
        obtain ⟨sf2, evs2⟩ := out
        rw [hrest] at hrun
        simp only [Option.some.injEq, Prod.mk.injEq] at hrun
        obtain ⟨h1, h2⟩ := hrun
        subst h2
        obtain ⟨-, -, -, -, hsw, -, -, -⟩ :=
          tick_ok_spec settings packs s i s1 ev htick
        have hlen0 : ¬ i.keys.length = 0 := by
          have := hk i (by simp)
          simpa [List.length_eq_zero] using this
        rw [if_neg hlen0, hswt, switch_step_swIn_true] at hsw
        simp only [Except.ok.injEq, Prod.mk.injEq] at hsw
        obtain ⟨e1, e2, e3, e4⟩ := hsw
        have hswt1 : s1.switched_pack = true := e1.symm
        have hev : (ev.prev_fired || ev.next_fired) = false := by
          rw [← e3, ← e4]
          rfl
        rw [List.countP_cons,
          ih s1 sf2 evs2 hswt1 (fun x hx => hk x (by simp [hx])) hrest]
        simp [hev]

/-! ## C5: consumed flags -/

/-- C5: the consumed-flag discipline.  Per tick (with pack-switch
bindings that are not the empty combo): an action fires only when its
flag is clear and its binding matches, and a set flag clears exactly on
the tick whose sampled held-key set is empty.  Over any run of ticks in
which a binding stays matched and the held-key set never empties, the
bound action fires exactly once. -/
theorem consumed_flags_spec (settings : Settings) (packs : List Nat)
    (hpne : settings.previous_sound_pack ≠ some [])
    (hnne : settings.next_sound_pack ≠ some []) :
    (∀ s i s1 ev, tick settings packs s i = TickResult.ok s1 ev →
      (ev.toggle_fired = true → s.toggled = false ∧
        matchesOpt settings.toggle i.keys = true) ∧
      ((ev.prev_fired = true ∨ ev.next_fired = true) →
        s.switched_pack = false ∧
        (matchesOpt settings.previous_sound_pack i.keys = true ∨
          matchesOpt settings.next_sound_pack i.keys = true)) ∧
      (s.toggled = true → (s1.toggled = false ↔ i.keys = [])) ∧
      (s.switched_pack = true →
        (s1.switched_pack = false ↔ i.keys = []))) ∧
    (∀ s inputs sf evs,
      run settings packs s inputs = some (sf, evs) →
      s.toggled = false → inputs ≠ [] →
      (∀ inp ∈ inputs, inp.keys ≠ [] ∧
        matchesOpt settings.toggle inp.keys = true) →
      List.countP (fun e => e.toggle_fired) evs = 1) ∧
    (∀ s inputs sf evs,
      run settings packs s inputs = some (sf, evs) →
      s.switched_pack = false → inputs ≠ [] →
      (∀ inp ∈ inputs, inp.keys ≠ [] ∧
        (matchesOpt settings.previous_sound_pack inp.keys = true ∨
          matchesOpt settings.next_sound_pack inp.keys = true)) →
      List.countP (fun e => e.prev_fired || e.next_fired) evs = 1) := by
  refine ⟨?_, ?_, ?_⟩
  · intro s i s1 ev h
    obtain ⟨htf, htg, hact, hprev, hsw, hpl, hplay, hnoplay⟩ :=
      tick_ok_spec settings packs s i s1 ev h
    obtain ⟨hf1, hf2, hswe, hquiet⟩ :=
      switch_step_ok_facts settings packs.length i.keys
        (if i.keys.length = 0 then false else s.switched_pack)
        s.current_sound_pack s1.switched_pack s1.current_sound_pack
        ev.prev_fired ev.next_fired hsw
    refine ⟨?_, ?_, ?_, ?_⟩
    · intro hev
      rw [htf, Bool.and_eq_true] at hev
      obtain ⟨h1, h2⟩ := hev
      refine ⟨?_, h2⟩
      cases htg0 : s.toggled
      · rfl
      · rw [htg0] at h1
        simp at h1
    · intro hev
      rcases hev with hev | hev
      · obtain ⟨hswin, hm⟩ := hf1 hev
        have hknil : i.keys ≠ [] := by
          intro hk
          rw [hk, matchesOpt_nil _ hpne] at hm
          exact Bool.false_ne_true hm
        have hlen0 : ¬ i.keys.length = 0 := by
          simpa [List.length_eq_zero] using hknil
        rw [if_neg hlen0] at hswin
        exact ⟨hswin, Or.inl hm⟩
      · obtain ⟨hswin, hpf, hm⟩ := hf2 hev
        have hknil : i.keys ≠ [] := by
          intro hk
          rw [hk, matchesOpt_nil _ hnne] at hm
          exact Bool.false_ne_true hm
        have hlen0 : ¬ i.keys.length = 0 := by
          simpa [List.length_eq_zero] using hknil
        rw [if_neg hlen0] at hswin
        exact ⟨hswin, Or.inr hm⟩
    · intro htg1
      rw [htg, htg1]
      by_cases hlen0 : i.keys.length = 0
      · rw [if_pos hlen0]
        simp [List.length_eq_zero.mp hlen0]
      · rw [if_neg hlen0]
        constructor
        · intro hf
          exact absurd hf (by simp)
        · intro hk
          exfalso
          apply hlen0
          rw [hk]
          rfl
    · intro hsw1
      by_cases hlen0 : i.keys.length = 0
      · have hknil : i.keys = [] := List.length_eq_zero.mp hlen0
        have hswin0 : (if i.keys.length = 0 then false else s.switched_pack)
            = false := by rw [if_pos hlen0]
        have hpf : ev.prev_fired = false := by
          cases hpf0 : ev.prev_fired
          · rfl
          · obtain ⟨-, hm⟩ := hf1 hpf0
            rw [hknil, matchesOpt_nil _ hpne] at hm
            exact absurd hm (by simp)
        have hnf : ev.next_fired = false := by
          cases hnf0 : ev.next_fired
          · rfl
          · obtain ⟨-, -, hm⟩ := hf2 hnf0
            rw [hknil, matchesOpt_nil _ hnne] at hm
            exact absurd hm (by simp)
        have hs1 : s1.switched_pack = false := by
          rw [hswe, hswin0, hpf, hnf]
          rfl
        simp [hs1, hknil]
      · have hswin1 : (if i.keys.length = 0 then false else s.switched_pack)
            = true := by rw [if_neg hlen0, hsw1]
        rw [hswin1, switch_step_swIn_true] at hsw
        simp only [Except.ok.injEq, Prod.mk.injEq] at hsw
        obtain ⟨e1, e2, e3, e4⟩ := hsw
        constructor
        · intro hf
          rw [← e1] at hf
          simp at hf
        · intro hk
          exfalso
          apply hlen0
          rw [hk]
          rfl
  · intro s inputs sf evs hrun htog hne hall
    cases inputs with
    | nil => exact absurd rfl hne
    | cons i rest =>
      unfold run at hrun
      cases htick : tick settings packs s i with
      | terminated => rw [htick] at hrun; simp at hrun
      | panic k => rw [htick] at hrun; simp at hrun
      | ok s1 ev =>
        rw [htick] at hrun
        simp only [] at hrun
        cases hrest : run settings packs s1 rest with
        | none => rw [hrest] at hrun; simp at hrun
        | some out =>
          obtain ⟨sf2, evs2⟩ := out
          rw [hrest] at hrun
          simp only [Option.some.injEq, Prod.mk.injEq] at hrun
          obtain ⟨h1, h2⟩ := hrun
          subst h2
          obtain ⟨hi1, hi2⟩ := hall i (by simp)
          obtain ⟨htf, htg2, -, -, -, -, -, -⟩ :=
            tick_ok_spec settings packs s i s1 ev htick
          have hev : ev.toggle_fired = true := by
            rw [htf, htog, hi2]
            rfl
          have hlen0 : ¬ i.keys.length = 0 := by
            simpa [List.length_eq_zero] using hi1
          have htog1 : s1.toggled = true := by
            rw [htg2, if_neg hlen0, htog, hi2]
            rfl
          rw [List.countP_cons,
            run_toggled_true settings packs rest s1 sf2 evs2 htog1
              (fun x hx => (hall x (by simp [hx])).1) hrest]
          simp [hev]
  · intro s inputs sf evs hrun hswf hne hall
    cases inputs with
    | nil => exact absurd rfl hne
    | cons i rest =>
      unfold run at hrun
      cases htick : tick settings packs s i with
      | terminated => rw [htick] at hrun; simp at hrun
      | panic k => rw [htick] at hrun; simp at hrun
      | ok s1 ev =>
        rw [htick] at hrun
        simp only [] at hrun
        cases hrest : run settings packs s1 rest with
        | none => rw [hrest] at hrun; simp at hrun
        | some out =>
          obtain ⟨sf2, evs2⟩ := out
          rw [hrest] at hrun
          simp only [Option.some.injEq, Prod.mk.injEq] at hrun
          obtain ⟨h1, h2⟩ := hrun
          subst h2
          obtain ⟨hi1, hi2⟩ := hall i (by simp)
          obtain ⟨-, -, -, -, hsw, -, -, -⟩ :=
            tick_ok_spec settings packs s i s1 ev htick
          have hswin0 : (if i.keys.length = 0 then false else s.switched_pack)
              = false := by
            rw [hswf]
            simp
          rw [hswin0] at hsw
          obtain ⟨hfired, hswtrue⟩ :=
            switch_step_fires settings packs.length i.keys
              s.current_sound_pack s1.switched_pack s1.current_sound_pack
              ev.prev_fired ev.next_fired hi2 hsw
          rw [List.countP_cons,
            run_switched_true settings packs rest s1 sf2 evs2 hswtrue
              (fun x hx => (hall x (by simp [hx])).1) hrest]
          simp [hfired]

/-- C5 witness: holding the toggle binding for three consecutive ticks
flips `active` exactly once. -/
theorem consumed_flags_spec_witness :
    List.countP (fun e => e.toggle_fired)
      ([⟨true, false, false, false⟩, ⟨false, false, false, false⟩,
        ⟨false, false, false, false⟩] : List TickEvents) = 1 :=
  (consumed_flags_spec
    { sound_packs := [SoundPackSettings.Basic "a"],
      previous_sound_pack := none,
      next_sound_pack := none,
      terminate := none,
      toggle := some ["F3"],
      volume := none,
      pitch_start := none,
      pitch_range := none,
      pitch_steps := none,
      fast_threshold := none }
    [1] (by simp) (by simp)).2.1
    ⟨true, false, false, 0, 0, 1/2, 0⟩
    [⟨["F3"], 0, 0⟩, ⟨["F3"], 0, 0⟩, ⟨["F3"], 0, 0⟩]
    ⟨false, true, false, 0, 0, 1/2, 0⟩
    [⟨true, false, false, false⟩, ⟨false, false, false, false⟩,
      ⟨false, false, false, false⟩]
    (by decide) rfl (by simp) (by decide)

end KSFX
